import Mathlib

/-
Shallow embedding of `src/src/main.rs` (covanam/calculator).

The Rust program lexes a line of text into tokens (`get_first_number`,
`get_token`, `tokenize`) and evaluates the token stream with a
recursive-descent evaluator (`evaluate_factor`, `evaluate_term`,
`evaluate_expression`, `evaluate`).

Modelling choices:

* Rust `f64` is modelled by the type `FP` below: a finite value is an exact
  rational, plus the IEEE-754 special values `inf`, `negInf` and `nan`.
  The arithmetic cases (infinity/NaN propagation, division by zero) follow
  IEEE-754 double semantics.  IEEE rounding and the sign of zero are not
  modelled: every numeric computation appearing in the claims is exact in
  binary64, and no claim distinguishes `-0.0` from `0.0`.  Decimal literals
  beyond the finite f64 range (which Rust's `parse::<f64>` turns into
  `inf`) are kept as exact rationals; this does not affect any claimed
  property (such literals are still non-negative and non-NaN).
* Rust's `char::is_numeric` is modelled as ASCII `Char.isDigit` and
  `char::is_whitespace` as ASCII whitespace; the claims only exercise
  ASCII input.
* Rust iterators become explicit list-passing: each lexer step returns the
  unconsumed rest of the character list, and each evaluator rule returns
  the unconsumed rest of the token list.
* Rust `Result<T, E>` is modelled by `Result T E` with constructors
  `Ok`/`Err`; `Option` keeps its Rust meaning.
* The mutually recursive evaluator rules are given a fuel parameter so that
  the definitions are structurally recursive (hence kernel-computable);
  `none` marks fuel exhaustion, which no claim depends on: the top-level
  entry points supply fuel that is ample for every input considered, and
  the conditional theorems hypothesise a `some` result.
-/

namespace Calculator

/-- Exact rational addition, written via `Rat.divInt` so that it is
kernel-computable (the library's `Rat.add` is irreducible); proved equal
to `+` in `qadd_eq`. -/
def qadd (a b : ℚ) : ℚ := Rat.divInt (a.num * b.den + b.num * a.den) (a.den * b.den)

/-- Exact rational subtraction (kernel-computable form of `-`). -/
def qsub (a b : ℚ) : ℚ := Rat.divInt (a.num * b.den - b.num * a.den) (a.den * b.den)

/-- Exact rational multiplication (kernel-computable form of `*`). -/
def qmul (a b : ℚ) : ℚ := Rat.divInt (a.num * b.num) (a.den * b.den)

/-- Exact rational division (kernel-computable form of `/`). -/
def qdiv (a b : ℚ) : ℚ := Rat.divInt (a.num * b.den) ((a.den : ℤ) * b.num)

theorem qadd_eq (a b : ℚ) : qadd a b = a + b := by
  have ha : (a.den : ℚ) ≠ 0 := by exact_mod_cast a.den_nz
  have hb : (b.den : ℚ) ≠ 0 := by exact_mod_cast b.den_nz
  have h1 : (a.num : ℚ) = a * a.den := (div_eq_iff ha).mp (Rat.num_div_den a)
  have h2 : (b.num : ℚ) = b * b.den := (div_eq_iff hb).mp (Rat.num_div_den b)
  unfold qadd
  rw [Rat.divInt_eq_div]
  push_cast
  rw [div_eq_iff (mul_ne_zero ha hb), h1, h2]
  ring

theorem qsub_eq (a b : ℚ) : qsub a b = a - b := by
  have ha : (a.den : ℚ) ≠ 0 := by exact_mod_cast a.den_nz
  have hb : (b.den : ℚ) ≠ 0 := by exact_mod_cast b.den_nz
  have h1 : (a.num : ℚ) = a * a.den := (div_eq_iff ha).mp (Rat.num_div_den a)
  have h2 : (b.num : ℚ) = b * b.den := (div_eq_iff hb).mp (Rat.num_div_den b)
  unfold qsub
  rw [Rat.divInt_eq_div]
  push_cast
  rw [div_eq_iff (mul_ne_zero ha hb), h1, h2]
  ring

theorem qmul_eq (a b : ℚ) : qmul a b = a * b := by
  have ha : (a.den : ℚ) ≠ 0 := by exact_mod_cast a.den_nz
  have hb : (b.den : ℚ) ≠ 0 := by exact_mod_cast b.den_nz
  have h1 : (a.num : ℚ) = a * a.den := (div_eq_iff ha).mp (Rat.num_div_den a)
  have h2 : (b.num : ℚ) = b * b.den := (div_eq_iff hb).mp (Rat.num_div_den b)
  unfold qmul
  rw [Rat.divInt_eq_div]
  push_cast
  rw [div_eq_iff (mul_ne_zero ha hb), h1, h2]
  ring

theorem qdiv_eq (a b : ℚ) : qdiv a b = a / b := by
  by_cases hb0 : b = 0
  · subst hb0
    unfold qdiv
    norm_num [Rat.divInt_eq_div]
  · have ha : (a.den : ℚ) ≠ 0 := by exact_mod_cast a.den_nz
    have hb : (b.den : ℚ) ≠ 0 := by exact_mod_cast b.den_nz
    have hbn : (b.num : ℚ) ≠ 0 := Int.cast_ne_zero.mpr (Rat.num_ne_zero.mpr hb0)
    have h1 : (a.num : ℚ) = a * a.den := (div_eq_iff ha).mp (Rat.num_div_den a)
    have h2 : (b.num : ℚ) = b * b.den := (div_eq_iff hb).mp (Rat.num_div_den b)
    unfold qdiv
    rw [Rat.divInt_eq_div]
    push_cast
    rw [div_eq_div_iff (mul_ne_zero ha hbn) hb0, h1, h2]
    ring

/-- Model of `f64`: exact rationals plus the IEEE-754 special values. -/
inductive FP where
  | finite (q : ℚ)
  | inf
  | negInf
  | nan
deriving DecidableEq

/-- IEEE-754 negation on the model (used to state sign facts). -/
def FP.neg : FP → FP
  | .finite q => .finite (qsub 0 q)
  | .inf => .negInf
  | .negInf => .inf
  | .nan => .nan

/-- IEEE-754 addition on the model (`+` on `f64`). -/
def FP.add : FP → FP → FP
  | .nan, _ => .nan
  | _, .nan => .nan
  | .inf, .inf => .inf
  | .inf, .negInf => .nan
  | .inf, .finite _ => .inf
  | .negInf, .inf => .nan
  | .negInf, .negInf => .negInf
  | .negInf, .finite _ => .negInf
  | .finite _, .inf => .inf
  | .finite _, .negInf => .negInf
  | .finite a, .finite b => .finite (qadd a b)

/-- IEEE-754 subtraction on the model (`-` on `f64`). -/
def FP.sub : FP → FP → FP
  | .nan, _ => .nan
  | _, .nan => .nan
  | .inf, .inf => .nan
  | .inf, .negInf => .inf
  | .inf, .finite _ => .inf
  | .negInf, .inf => .negInf
  | .negInf, .negInf => .nan
  | .negInf, .finite _ => .negInf
  | .finite _, .inf => .negInf
  | .finite _, .negInf => .inf
  | .finite a, .finite b => .finite (qsub a b)

/-- IEEE-754 multiplication on the model (`*` on `f64`). -/
def FP.mul : FP → FP → FP
  | .nan, _ => .nan
  | _, .nan => .nan
  | .inf, .inf => .inf
  | .inf, .negInf => .negInf
  | .negInf, .inf => .negInf
  | .negInf, .negInf => .inf
  | .inf, .finite b => if 0 < b then .inf else if b < 0 then .negInf else .nan
  | .negInf, .finite b => if 0 < b then .negInf else if b < 0 then .inf else .nan
  | .finite a, .inf => if 0 < a then .inf else if a < 0 then .negInf else .nan
  | .finite a, .negInf => if 0 < a then .negInf else if a < 0 then .inf else .nan
  | .finite a, .finite b => .finite (qmul a b)

/-- IEEE-754 division on the model (`/` on `f64`): a finite nonzero value
divided by (positive) zero is a signed infinity, `0/0` is NaN. -/
def FP.div : FP → FP → FP
  | .nan, _ => .nan
  | _, .nan => .nan
  | .inf, .inf => .nan
  | .inf, .negInf => .nan
  | .negInf, .inf => .nan
  | .negInf, .negInf => .nan
  | .inf, .finite b => if 0 ≤ b then .inf else .negInf
  | .negInf, .finite b => if 0 ≤ b then .negInf else .inf
  | .finite _, .inf => .finite 0
  | .finite _, .negInf => .finite 0
  | .finite a, .finite b =>
      if b = 0 then
        if 0 < a then .inf else if a < 0 then .negInf else .nan
      else .finite (qdiv a b)

/-- Rust `Result<T, E>`. -/
inductive Result (T : Type) (E : Type) where
  | Ok (v : T)
  | Err (e : E)
deriving DecidableEq

/-- The `Token` enum of main.rs (lines 7-15).  Note: there is no
`Invalid`/`Invalid(char)` variant in the source. -/
inductive Token where
  | Number (v : FP)
  | LeftBracket
  | RightBracket
  | Add
  | Sub
  | Mul
  | Div
deriving DecidableEq

/-- The `ParseError` enum of main.rs (lines 17-20). -/
inductive ParseError where
  | InvalidNumber (s : String)
  | InvalidCharacter (c : Char)
deriving DecidableEq

/-- The `EvaluateError` enum of main.rs (lines 106-109). -/
inductive EvaluateError where
  | UnexpectedToken (t : Token)
  | UnexpectedEnding
deriving DecidableEq

/-- The character class scanned by `get_first_number`:
`c.is_numeric() || *c == '.'` (main.rs line 41), with `is_numeric`
modelled as ASCII digit. -/
def numChar (c : Char) : Bool := c.isDigit || c == '.'

/-- Model of Rust `str::parse::<f64>()` restricted to the strings
`get_first_number` can scan (runs of digits and dots): parsing succeeds
iff the run holds at least one digit and at most one dot, and the value
is the exact decimal value. -/
def rustParseF64 (cs : List Char) : Option ℚ :=
  if cs.any Char.isDigit && (cs.filter (fun c => c == '.')).length ≤ 1 then
    let ip := cs.takeWhile (fun c => c != '.')
    let fp := (cs.dropWhile (fun c => c != '.')).drop 1
    some (qadd (ip.foldl (fun n c => 10 * n + (c.toNat - 48)) 0 : ℕ)
      (qdiv (fp.foldl (fun n c => 10 * n + (c.toNat - 48)) 0 : ℕ) ((10 ^ fp.length : ℕ) : ℚ)))
  else
    none

/-- `get_first_number` (main.rs lines 36-54): scan the maximal run of
digit/dot characters; an empty run yields `None`, a run that parses as an
`f64` yields its value, and any other run is an `InvalidNumber` error
carrying the scanned text. -/
def get_first_number (cs : List Char) :
    Result (Option FP × List Char) ParseError :=
  if (cs.takeWhile numChar).length = 0 then
    .Ok (none, cs.dropWhile numChar)
  else
    match rustParseF64 (cs.takeWhile numChar) with
    | some q => .Ok (some (.finite q), cs.dropWhile numChar)
    | none => .Err (.InvalidNumber (String.mk (cs.takeWhile numChar)))

/-- `get_token` (main.rs lines 56-90): skip whitespace, try a number, then
consume one character and classify it; any character outside the token
classes aborts lexing with `InvalidCharacter`. -/
def get_token (cs : List Char) : Result (Option Token × List Char) ParseError :=
  match get_first_number (cs.dropWhile Char.isWhitespace) with
  | .Err e => .Err e
  | .Ok (some v, rest) => .Ok (some (.Number v), rest)
  | .Ok (none, rest) =>
    match rest with
    | [] => .Ok (none, [])
    | c :: rest' =>
      match c with
      | '(' => .Ok (some .LeftBracket, rest')
      | ')' => .Ok (some .RightBracket, rest')
      | '+' => .Ok (some .Add, rest')
      | '-' => .Ok (some .Sub, rest')
      | '*' => .Ok (some .Mul, rest')
      | '/' => .Ok (some .Div, rest')
      | other => .Err (.InvalidCharacter other)

/-- The loop body of `tokenize` (main.rs lines 92-104), with a fuel
parameter making the recursion structural; each produced token consumes at
least one character, so fuel `length + 1` (supplied by `tokenize`) never
runs out. -/
def tokenize_aux : ℕ → List Char → Option (Result (List Token) ParseError)
  | 0, _ => none
  | fuel + 1, cs =>
    match get_token cs with
    | .Err e => some (.Err e)
    | .Ok (none, _) => some (.Ok [])
    | .Ok (some t, rest) =>
      match tokenize_aux fuel rest with
      | none => none
      | some (.Err e) => some (.Err e)
      | some (.Ok ts) => some (.Ok (t :: ts))

/-- `tokenize` (main.rs lines 92-104). -/
def tokenize (s : String) : Option (Result (List Token) ParseError) :=
  tokenize_aux (s.data.length + 1) s.data

/-- One result of an evaluator rule: the value and the unconsumed tokens,
or an `EvaluateError`; `none` is fuel exhaustion. -/
abbrev EvalStep := Option (Result (FP × List Token) EvaluateError)

mutual

/-- `evaluate_factor` (main.rs lines 116-141); grammar comment in the
source: `factor = number | (expression)` — there is no unary-sign rule. -/
def factorAux : ℕ → List Token → EvalStep
  | 0, _ => none
  | fuel + 1, ts =>
    match ts with
    | [] => some (.Err .UnexpectedEnding)
    | t :: rest =>
      match t with
      | .Number v => some (.Ok (v, rest))
      | .LeftBracket =>
        match exprAux fuel rest with
        | none => none
        | some (.Err e) => some (.Err e)
        | some (.Ok (v, rest')) =>
          match rest' with
          | [] => some (.Err .UnexpectedEnding)
          | t' :: rest'' =>
            match t' with
            | .RightBracket => some (.Ok (v, rest''))
            | _ => some (.Err (.UnexpectedToken t'))
      | other => some (.Err (.UnexpectedToken other))

/-- `evaluate_term` (main.rs lines 149-169); grammar comment in the
source: `term = factor * term | factor / term | factor` — the `*`/`/`
continuation recurses into the right-hand side. -/
def termAux : ℕ → List Token → EvalStep
  | 0, _ => none
  | fuel + 1, ts =>
    match factorAux fuel ts with
    | none => none
    | some (.Err e) => some (.Err e)
    | some (.Ok (v, rest)) =>
      match rest with
      | .Mul :: rest' =>
        match termAux fuel rest' with
        | none => none
        | some (.Err e) => some (.Err e)
        | some (.Ok (w, r)) => some (.Ok (FP.mul v w, r))
      | .Div :: rest' =>
        match termAux fuel rest' with
        | none => none
        | some (.Err e) => some (.Err e)
        | some (.Ok (w, r)) => some (.Ok (FP.div v w, r))
      | _ => some (.Ok (v, rest))

/-- `evaluate_expression` (main.rs lines 177-198); grammar comment in the
source: `expression = term + expression | term - expression | term` — the
`+`/`-` continuation recurses into the right-hand side. -/
def exprAux : ℕ → List Token → EvalStep
  | 0, _ => none
  | fuel + 1, ts =>
    match termAux fuel ts with
    | none => none
    | some (.Err e) => some (.Err e)
    | some (.Ok (v, rest)) =>
      match rest with
      | .Add :: rest' =>
        match exprAux fuel rest' with
        | none => none
        | some (.Err e) => some (.Err e)
        | some (.Ok (w, r)) => some (.Ok (FP.add v w, r))
      | .Sub :: rest' =>
        match exprAux fuel rest' with
        | none => none
        | some (.Err e) => some (.Err e)
        | some (.Ok (w, r)) => some (.Ok (FP.sub v w, r))
      | _ => some (.Ok (v, rest))

end

/-- Ample fuel for a token list: each recursive descent step either moves
to a higher-precedence rule (at most three levels) or consumes a token. -/
def parserFuel (ts : List Token) : ℕ := 3 * ts.length + 3

/-- `evaluate_expression` applied to a whole token list, as `evaluate`
calls it. -/
def evaluate_expression (ts : List Token) : EvalStep :=
  exprAux (parserFuel ts) ts

/-- `evaluate` (main.rs lines 200-209): run `evaluate_expression`, then
fail with `UnexpectedToken` on the first remaining token, if any. -/
def evaluate (ts : List Token) : Option (Result FP EvaluateError) :=
  match evaluate_expression ts with
  | none => none
  | some (.Err e) => some (.Err e)
  | some (.Ok (v, rem)) =>
    match rem with
    | [] => some (.Ok v)
    | t :: _ => some (.Err (.UnexpectedToken t))

/-- Whether a `Result` is the `Ok` variant. -/
def Result.isOk {T E : Type} : Result T E → Bool
  | .Ok _ => true
  | .Err _ => false

/-- A value returned by the model of `parse::<f64>` is a non-negative
rational: the scanned text holds only digits and dots, no sign. -/
theorem rustParseF64_nonneg (cs : List Char) (q : ℚ)
    (h : rustParseF64 cs = some q) : 0 ≤ q := by
  unfold rustParseF64 at h
  split at h
  · simp only [Option.some_inj] at h
    subst h
    rw [qadd_eq, qdiv_eq]
    positivity
  · exact absurd h (by simp)

/-- Every `Number` value produced by `get_first_number` is a non-negative
finite rational. -/
theorem get_first_number_ok_number (cs : List Char) (v : FP) (rest : List Char)
    (h : get_first_number cs = .Ok (some v, rest)) :
    ∃ q : ℚ, v = FP.finite q ∧ 0 ≤ q := by
  unfold get_first_number at h
  split at h
  · simp at h
  · split at h
    case _ q hq =>
      simp only [Result.Ok.injEq, Prod.mk.injEq, Option.some_inj] at h
      exact ⟨q, h.1.symm, rustParseF64_nonneg _ q hq⟩
    case _ hq =>
      simp at h

/-- Every `Number` token produced by `get_token` holds a non-negative
finite rational. -/
theorem get_token_ok_number (cs : List Char) (v : FP) (rest : List Char)
    (h : get_token cs = .Ok (some (.Number v), rest)) :
    ∃ q : ℚ, v = FP.finite q ∧ 0 ≤ q := by
  unfold get_token at h
  split at h
  · simp at h
  case _ w r heq =>
    simp only [Result.Ok.injEq, Prod.mk.injEq, Option.some_inj, Token.Number.injEq] at h
    exact h.1 ▸ get_first_number_ok_number _ w r heq
  case _ r heq =>
    split at h
    · simp at h
    · split at h <;> simp_all

/-- Every `Number` token in a successfully tokenized list holds a
non-negative finite rational (by induction over the lexer loop). -/
theorem tokenize_aux_number (fuel : ℕ) (cs : List Char) (ts : List Token)
    (h : tokenize_aux fuel cs = some (.Ok ts)) (v : FP)
    (hv : Token.Number v ∈ ts) :
    ∃ q : ℚ, v = FP.finite q ∧ 0 ≤ q := by
  induction fuel generalizing cs ts with
  | zero => simp [tokenize_aux] at h
  | succ fuel ih =>
    unfold tokenize_aux at h
    split at h
    · simp at h
    · simp only [Option.some_inj, Result.Ok.injEq] at h
      subst h
      simp at hv
    case _ t rest heq =>
      split at h
      · simp at h
      · simp at h
      case _ ts' heq2 =>
        simp only [Option.some_inj, Result.Ok.injEq] at h
        subst h
        rcases List.mem_cons.mp hv with hvt | hvts
        · subst hvt
          exact get_token_ok_number _ v rest heq
        · exact ih rest ts' heq2 hvts

/-- C1: the claim says `-` and `/` are folded left-to-right, with
`evaluate(tokenize("10-3-2")) = Ok(5.0)` and
`evaluate(tokenize("100/5/2")) = Ok(10.0)`.  The source grammar is
right-recursive (`expression = term - expression`,
`term = factor / term`), so the code computes `10 - (3 - 2) = 9` and
`100 / (5 / 2) = 40` (both exact in binary64). -/
theorem c1_sub_div_right_associative_in_code :
    tokenize "10-3-2" = some (.Ok [.Number (.finite 10), .Sub,
      .Number (.finite 3), .Sub, .Number (.finite 2)])
    ∧ evaluate [.Number (.finite 10), .Sub, .Number (.finite 3), .Sub,
      .Number (.finite 2)] = some (.Ok (.finite 9))
    ∧ tokenize "100/5/2" = some (.Ok [.Number (.finite 100), .Div,
      .Number (.finite 5), .Div, .Number (.finite 2)])
    ∧ evaluate [.Number (.finite 100), .Div, .Number (.finite 5), .Div,
      .Number (.finite 2)] = some (.Ok (.finite 40)) := by decide

/-- C2 counterexample: the claim says `evaluate(tokenize("--5")) = Ok(5.0)`;
in the code the factor rule has no unary-sign case, so the result is not
`Ok(5.0)`. -/
theorem c2_counterexample :
    tokenize "--5" = some (.Ok [.Sub, .Sub, .Number (.finite 5)])
    ∧ evaluate [.Sub, .Sub, .Number (.finite 5)] ≠ some (.Ok (.finite 5)) := by
  decide

/-- C2 (amended): `evaluate_factor` accepts only a number or a
parenthesized expression; a leading `+`/`-` sign is rejected, so
`evaluate(tokenize("--5"))` and `evaluate(tokenize("-5+3"))` are both
`Err(UnexpectedToken(Sub))`. -/
theorem c2_unary_sign_rejected :
    tokenize "--5" = some (.Ok [.Sub, .Sub, .Number (.finite 5)])
    ∧ evaluate [.Sub, .Sub, .Number (.finite 5)]
        = some (.Err (.UnexpectedToken .Sub))
    ∧ tokenize "-5+3" = some (.Ok [.Sub, .Number (.finite 5), .Add,
        .Number (.finite 3)])
    ∧ evaluate [.Sub, .Number (.finite 5), .Add, .Number (.finite 3)]
        = some (.Err (.UnexpectedToken .Sub)) := by decide

/-- C3 counterexample: the claim says lexing never fails and
`tokenize("2#3")` yields a token sequence containing `Invalid('#')`; in
the code lexing aborts with `Err(InvalidCharacter('#'))` and no token
sequence is produced (the `Token` enum has no `Invalid` variant at all). -/
theorem c3_counterexample :
    tokenize "2#3" = some (.Err (.InvalidCharacter '#'))
    ∧ (tokenize "2#3").map Result.isOk = some false := by decide

/-- C3 (amended): lexing does fail on characters outside the token
classes: any leading character that is not whitespace, not a digit/dot,
and not one of `( ) + - * /` makes `get_token` — and hence `tokenize` —
return `Err(InvalidCharacter(c))`, so `evaluate` is never reached. -/
theorem c3_lexing_fails_on_invalid_char (c : Char) (cs : List Char)
    (h1 : c.isWhitespace = false) (h2 : numChar c = false)
    (h3 : c ∉ ['(', ')', '+', '-', '*', '/']) :
    get_token (c :: cs) = .Err (.InvalidCharacter c) := by
  have hw : List.dropWhile Char.isWhitespace (c :: cs) = c :: cs := by
    simp [List.dropWhile_cons, h1]
  have hn : get_first_number (c :: cs) = .Ok (none, c :: cs) := by
    unfold get_first_number
    simp [List.takeWhile_cons, List.dropWhile_cons, h2]
  simp only [List.mem_cons, List.not_mem_nil, or_false, not_or] at h3
  obtain ⟨n1, n2, n3, n4, n5, n6⟩ := h3
  unfold get_token
  rw [hw, hn]
  dsimp only
  split <;> simp_all

/-- C3 witness: the general rejection theorem applied at `'#'`, together
with the concrete behavior on the input `"2#3"`. -/
theorem c3_witness :
    get_token ['#', '3'] = .Err (.InvalidCharacter '#')
    ∧ tokenize "2#3" = some (.Err (.InvalidCharacter '#')) :=
  ⟨c3_lexing_fails_on_invalid_char '#' ['3'] (by decide) (by decide)
    (by decide), by decide⟩

/-- C4: `*` and `/` bind tighter than `+` and `-` (the `term` rule is
evaluated below the `expression` rule), and parentheses override the
precedence: `evaluate(tokenize("2+3*4")) = Ok(14.0)` and
`evaluate(tokenize("(2+3)*4")) = Ok(20.0)`. -/
theorem c4_precedence_and_parentheses :
    tokenize "2+3*4" = some (.Ok [.Number (.finite 2), .Add,
      .Number (.finite 3), .Mul, .Number (.finite 4)])
    ∧ evaluate [.Number (.finite 2), .Add, .Number (.finite 3), .Mul,
      .Number (.finite 4)] = some (.Ok (.finite 14))
    ∧ tokenize "(2+3)*4" = some (.Ok [.LeftBracket, .Number (.finite 2),
      .Add, .Number (.finite 3), .RightBracket, .Mul, .Number (.finite 4)])
    ∧ evaluate [.LeftBracket, .Number (.finite 2), .Add,
      .Number (.finite 3), .RightBracket, .Mul, .Number (.finite 4)]
      = some (.Ok (.finite 20)) := by decide

/-- C5: division by zero is not an error: `evaluate(tokenize("1/0"))`
returns the IEEE-754 positive infinity as a normal `Ok` result, not an
`EvaluateError`. -/
theorem c5_division_by_zero_is_infinity :
    tokenize "1/0" = some (.Ok [.Number (.finite 1), .Div,
      .Number (.finite 0)])
    ∧ evaluate [.Number (.finite 1), .Div, .Number (.finite 0)]
      = some (.Ok FP.inf) := by decide

/-- C6: when the token stream ends where a factor was expected the
evaluator returns `UnexpectedEnding` (the source's name for the spec's
`UnexpectedEnd`): the empty token sequence evaluates to that error, and
`evaluate(tokenize("2+")) = Err(UnexpectedEnding)`. -/
theorem c6_unexpected_ending :
    tokenize "" = some (.Ok [])
    ∧ evaluate [] = some (.Err .UnexpectedEnding)
    ∧ tokenize "2+" = some (.Ok [.Number (.finite 2), .Add])
    ∧ evaluate [.Number (.finite 2), .Add]
      = some (.Err .UnexpectedEnding) := by decide

/-- C7: whenever the full expression evaluates successfully but tokens
remain, `evaluate` returns `UnexpectedToken` carrying the first remaining
token. -/
theorem c7_trailing_tokens (ts rest : List Token) (v : FP) (t : Token)
    (h : evaluate_expression ts = some (.Ok (v, t :: rest))) :
    evaluate ts = some (.Err (.UnexpectedToken t)) := by
  unfold evaluate
  rw [h]

/-- C7 witness: on `"2+3)"` the expression `2+3` evaluates to `5` leaving
`RightBracket`, so `evaluate` fails with `UnexpectedToken(RightBracket)`. -/
theorem c7_witness :
    tokenize "2+3)" = some (.Ok [.Number (.finite 2), .Add,
      .Number (.finite 3), .RightBracket])
    ∧ evaluate [.Number (.finite 2), .Add, .Number (.finite 3),
      .RightBracket] = some (.Err (.UnexpectedToken .RightBracket)) :=
  ⟨by decide, c7_trailing_tokens _ [] (.finite 5) .RightBracket (by decide)⟩

/-- C8: a non-empty scanned digit/dot run that does not parse as a number
makes `get_first_number` fail with `InvalidNumber` carrying exactly the
scanned text — it is never handed to single-character tokenization. -/
theorem c8_invalid_number_failure (cs : List Char)
    (h1 : (cs.takeWhile numChar).length ≠ 0)
    (h2 : rustParseF64 (cs.takeWhile numChar) = none) :
    get_first_number cs
      = .Err (.InvalidNumber (String.mk (cs.takeWhile numChar))) := by
  unfold get_first_number
  rw [if_neg h1, h2]

/-- C8 witness: the run `"1.2.3"` (two decimal points) is scanned whole
and reported as `InvalidNumber("1.2.3")`, also through `tokenize`. -/
theorem c8_witness :
    get_first_number ("1.2.3".data)
      = .Err (.InvalidNumber "1.2.3")
    ∧ tokenize "1.2.3" = some (.Err (.InvalidNumber "1.2.3")) :=
  ⟨c8_invalid_number_failure ("1.2.3".data) (by decide) (by decide),
    by decide⟩

/-- C9: the lexer skips whitespace runs, so `"  2  +  3  "` and `"2+3"`
tokenize to the same token list, and the evaluation result coincides. -/
theorem c9_whitespace_insensitive :
    tokenize "  2  +  3  " = some (.Ok [.Number (.finite 2), .Add,
      .Number (.finite 3)])
    ∧ tokenize "2+3" = some (.Ok [.Number (.finite 2), .Add,
      .Number (.finite 3)])
    ∧ evaluate [.Number (.finite 2), .Add, .Number (.finite 3)]
      = some (.Ok (.finite 5)) := by decide

/-- C10: every `Number` token in a successfully tokenized sequence
carries a non-negative, non-NaN payload: it is a finite rational `q` with
`0 ≤ q` (in particular it is not `FP.nan`). -/
theorem c10_number_payloads_nonneg (s : String) (ts : List Token) (v : FP)
    (h : tokenize s = some (.Ok ts)) (hv : Token.Number v ∈ ts) :
    ∃ q : ℚ, v = FP.finite q ∧ 0 ≤ q :=
  tokenize_aux_number (s.data.length + 1) s.data ts h v hv

/-- C10 witness: the invariant applied to the tokenization of `"2"`. -/
theorem c10_witness : ∃ q : ℚ, FP.finite 2 = FP.finite q ∧ 0 ≤ q :=
  c10_number_payloads_nonneg "2" [Token.Number (FP.finite 2)]
    (FP.finite 2) (by decide) (by decide)

end Calculator
